import Mathlib

/-!
Shallow embedding of `monasca_agent/collector/checks_d/swift_handoffs.py`:
the placement-reconciliation check that compares a swift ring's intended
partition placement with the partitions actually found on disk.

Filesystem interaction (`os.path.*`, `os.listdir`) is modelled as an explicit
snapshot structure `FS`; the metrics sink (`self.gauge`) is modelled by
returning the list of emitted gauges; `self.log.error` followed by
`return None` is modelled by the `CheckResult.configError` constructor, and
an uncaught exception (`raise`) by `CheckResult.fatal`.
-/

namespace Swift

/-- One entry of the ring's device table (`ring.devs`); only the `device`
name field is used by the check. -/
structure Dev where
  device : String
deriving DecidableEq

/-- `swift.common.ring.Ring`, as used by the check: the dense
`_replica2part2dev_id` table (one row per replica, indexed by partition,
holding device ids) and the device table `devs`. -/
structure Ring where
  replica2part2dev_id : List (List Nat)
  devs : List Dev
deriving DecidableEq

/-- The ring's replica count: the number of rows of `_replica2part2dev_id`. -/
def replicaCount (ring : Ring) : Nat :=
  ring.replica2part2dev_id.length

/-- `ring.devs[device_id]['device']`. The source raises `IndexError` on an
out-of-range id; we totalise with `""` and carry a `Ring.valid` hypothesis
in the theorems that need in-range ids. -/
def devNameAt (ring : Ring) (device_id : Nat) : String :=
  ((ring.devs.get? device_id).map Dev.device).getD ""

/-- Every device id stored in the table is in range of the device table. -/
def Ring.valid (ring : Ring) : Prop :=
  ∀ row ∈ ring.replica2part2dev_id, ∀ id ∈ row, id < ring.devs.length

instance (ring : Ring) : Decidable ring.valid := by
  unfold Ring.valid; infer_instance

/-- One step of the `dev2parts` accumulation:
`dev2parts[ring.devs[device_id]['device']].add(part)` for the enumerated
pair `pd = (part, device_id)`, on a defaultdict-of-sets modelled as a total
function with default `∅`. -/
def insStep (f : Nat → String) (acc : String → Finset Nat) (pd : Nat × Nat) :
    String → Finset Nat :=
  fun x => if x = f pd.2 then insert pd.1 (acc x) else acc x

/-- `for part, device_id in enumerate(part2dev): dev2parts[...].add(part)` -/
def addRow (ring : Ring) (acc : String → Finset Nat) (part2dev : List Nat) :
    String → Finset Nat :=
  part2dev.enum.foldl (insStep (devNameAt ring)) acc

/-- The primary index `dev2parts`:
`for replica, part2dev in enumerate(ring._replica2part2dev_id): for part,
device_id in enumerate(part2dev): dev2parts[...]['device']].add(part)`. -/
def dev2parts (ring : Ring) : String → Finset Nat :=
  ring.replica2part2dev_id.foldl (addRow ring) (fun _ => ∅)

/-- The device names assigned to partition `p`, one per replica whose row
covers `p` (duplicates kept: one entry per replica). -/
def assignedDevs (ring : Ring) (p : Nat) : List String :=
  ring.replica2part2dev_id.filterMap fun row => (row.get? p).map (devNameAt ring)

/-- Python `str.isdigit()` restricted to ASCII: nonempty and all digits
(over the underlying character list, so it computes in the kernel). -/
def pyIsdigit (s : String) : Bool :=
  !s.data.isEmpty && s.data.all Char.isDigit

/-- Python `int(s)`, for the digit strings the check applies it to:
the base-10 value of the character list. -/
def pyInt (s : String) : Nat :=
  s.data.foldl (fun n c => n * 10 + (c.toNat - 48)) 0

/-- Python `str.lower()` on one ASCII character. -/
def pyLowerChar (c : Char) : Char :=
  if 'A' ≤ c ∧ c ≤ 'Z' then Char.ofNat (c.toNat + 32) else c

/-- Python `str.lower()`, restricted to ASCII case folding. -/
def pyLower (s : String) : String :=
  ⟨s.data.map pyLowerChar⟩

/-- Python `str.split(sep)` for a one-character separator, over character
lists. -/
def splitOnChar (sep : Char) : List Char → List (List Char)
  | [] => [[]]
  | c :: rest =>
    let r := splitOnChar sep rest
    if c = sep then [] :: r
    else (c :: r.headD []) :: r.tail

/-- Python `str.split(sep)` returning strings. -/
def pySplit (s : String) (sep : Char) : List String :=
  (splitOnChar sep s.data).map String.mk

/-- The partition numbers denoted by the numeric entries of a listing, in
listing order, with multiplicity. -/
def numericVals (parts : List String) : List Nat :=
  (parts.filter pyIsdigit).map pyInt

/-- The body of `for part in parts:` — skip non-digits, then either bump
the primary counter or add the partition to the handoff set. -/
def classifyStep (prim : Finset Nat) (acc : Nat × Finset Nat) (part : String) :
    Nat × Finset Nat :=
  if pyIsdigit part then
    let p := pyInt part
    if p ∈ prim then (acc.1 + 1, acc.2) else (acc.1, insert p acc.2)
  else acc

/-- Classification of one device's listing against its primary set:
returns the contribution to `primary_count[device_dir]` and to
`handoffs[device_dir]`. -/
def classifyParts (prim : Finset Nat) (parts : List String) : Nat × Finset Nat :=
  parts.foldl (classifyStep prim) (0, ∅)

/-- Result of `os.listdir` on a partitions directory: a listing, or
`OSError` with `errno == ENOENT`, or any other `OSError`. -/
inductive ListDirResult where
  | ok (entries : List String)
  | enoent
  | ioError
deriving DecidableEq

/-- `os.path.join` for the relative components used by the check. -/
def pathJoin (a b : String) : String :=
  a ++ "/" ++ b

/-- A snapshot of the filesystem observations the check makes. -/
structure FS where
  pathExists : String → Bool
  isDir : String → Bool
  isFile : String → Bool
  listDir : String → ListDirResult

/-- The per-check configuration dictionary (`instance`), plus the caller
tags the framework merges in via `_set_dimensions`. -/
structure Instance where
  devices : Option String := none
  ring : Option String := none
  granularity : Option String := none
  tags : List (String × String) := []

/-- Dimensions attached to an emitted gauge. -/
structure Dims where
  ring : String
  callerTags : List (String × String)
  device : Option String := none
deriving DecidableEq

/-- Modelled from the spec: `AgentCheck._set_dimensions` is external to the
sources; per the spec the framework's identifying tags are "attached
verbatim to every emitted value" alongside the ring dimension. -/
def set_dimensions (ring_name : String) (inst : Instance) : Dims :=
  { ring := ring_name, callerTags := inst.tags, device := none }

/-- One `self.gauge(name, value, dimensions)` call. -/
structure Gauge where
  name : String
  value : Nat
  dims : Dims
deriving DecidableEq

/-- Outcome of one `check` invocation. -/
inductive CheckResult where
  | configError (msg : String)
  | fatal
  | ok (gauges : List Gauge)
deriving DecidableEq

/-- The gauges an invocation emitted (none on config error or fatal abort). -/
def emitted : CheckResult → List Gauge
  | .ok gs => gs
  | _ => []

/-- External swift library collaborators used by `get_ring_and_datadir`:
`Ring(path)`, `split_policy_string`, `get_data_dir`. -/
structure SwiftLib where
  loadRing : String → Ring
  split_policy_string : String → String × Nat
  get_data_dir : Nat → String

/-- `os.path.basename`: the component after the last `/`. -/
def basename (path : String) : String :=
  ((pySplit path '/').getLast?).getD ""

/-- `os.path.basename(path).split('.')[0]`. -/
def ring_name_of (path : String) : String :=
  (pySplit (basename path) '.').headD ""

/-- `get_ring_and_datadir(path)`: the ring, its logical name, and the
data-directory name (`get_data_dir(policy)` for the object family, base
name pluralized otherwise). -/
def get_ring_and_datadir (lib : SwiftLib) (path : String) :
    Ring × String × String :=
  let ring_name := ring_name_of path
  let bp := lib.split_policy_string ring_name
  let datadir := if bp.1 = "object" then lib.get_data_dir bp.2 else bp.1 ++ "s"
  (lib.loadRing path, ring_name, datadir)

/-- The scan loop `for device_dir in device_dirs: ...`, with
`primary_count` and `handoffs` as defaultdict accumulators (total
functions defaulting to `0` / `∅`). `none` models the re-`raise` of a
non-ENOENT `OSError`, which aborts the whole check. -/
def scanLoop (prim : String → Finset Nat) (listing : String → ListDirResult) :
    List String → (String → Nat) → (String → Finset Nat) →
    Option ((String → Nat) × (String → Finset Nat))
  | [], primary_count, handoffs => some (primary_count, handoffs)
  | device_dir :: rest, primary_count, handoffs =>
    match listing device_dir with
    | .ioError => none
    | .enoent => scanLoop prim listing rest primary_count handoffs
    | .ok parts =>
      let r := classifyParts (prim device_dir) parts
      scanLoop prim listing rest
        (fun x => if x = device_dir then primary_count x + r.1 else primary_count x)
        (fun x => if x = device_dir then handoffs x ∪ r.2 else handoffs x)

/-- The entries a device's scan classifies: its listing when present,
nothing when the directory is absent or errors. -/
def localParts (listing : String → ListDirResult) (device_dir : String) :
    List String :=
  match listing device_dir with
  | .ok entries => entries
  | _ => []

/-- Error-free denotation of the scan loop (proved equal to `scanLoop`
when no listing yields a non-ENOENT error). -/
def scanTotal (prim : String → Finset Nat) (listing : String → ListDirResult) :
    List String → (String → Nat) × (String → Finset Nat)
  | [] => (fun _ => 0, fun _ => ∅)
  | device_dir :: rest =>
    let r := classifyParts (prim device_dir) (localParts listing device_dir)
    let acc := scanTotal prim listing rest
    (fun x => if x = device_dir then r.1 + acc.1 x else acc.1 x,
     fun x => if x = device_dir then r.2 ∪ acc.2 x else acc.2 x)

/-- `SwiftHandoffs.check(instance)`.  Mirrors the source control flow:
three configuration guards (each `log.error` + `return None`), ring
loading, primary-index construction, the device scan, then emission at
`server` or `device` granularity.  `sum(primary_count.values())` sums one
value per distinct dict key, hence the `dedup`. -/
def check (lib : SwiftLib) (fs : FS) (inst : Instance) : CheckResult :=
  let device_root := inst.devices.getD "/srv/node"
  if !fs.pathExists device_root || !fs.isDir device_root then
    .configError "devices must exist or be a directory"
  else
    let ring_path := inst.ring.getD "/etc/swift/object.ring.gz"
    if !fs.pathExists ring_path || !fs.isFile ring_path then
      .configError "ring must exist"
    else
      let granularity := pyLower (inst.granularity.getD "server")
      if granularity ≠ "server" ∧ granularity ≠ "device" then
        .configError "granularity must be either server or drive"
      else
        let rrd := get_ring_and_datadir lib ring_path
        let prim := dev2parts rrd.1
        match fs.listDir device_root with
        | .ok device_dirs =>
          match scanLoop prim
              (fun d => fs.listDir (pathJoin (pathJoin device_root d) rrd.2.2))
              device_dirs (fun _ => 0) (fun _ => ∅) with
          | none => .fatal
          | some pcho =>
            let dims := set_dimensions rrd.2.1 inst
            if granularity = "server" then
              .ok [⟨"swift_handoffs.primary",
                     (device_dirs.dedup.map pcho.1).sum, dims⟩,
                   ⟨"swift_handoffs.handoffs",
                     (device_dirs.dedup.map fun d => (pcho.2 d).card).sum, dims⟩]
            else
              .ok (device_dirs.flatMap fun device =>
                [⟨"swift_handoffs.primary", pcho.1 device,
                   { dims with device := some device }⟩,
                 ⟨"swift_handoffs.handoffs", (pcho.2 device).card,
                   { dims with device := some device }⟩])
        | _ => .fatal

/-! ### Characterization of the per-device classification loop -/

theorem numericVals_cons (s : String) (rest : List String) :
    numericVals (s :: rest) =
      if pyIsdigit s then pyInt s :: numericVals rest else numericVals rest := by
  by_cases h : pyIsdigit s <;> simp [numericVals, List.filter_cons, h]

theorem classify_foldl (prim : Finset Nat) (parts : List String)
    (a : Nat) (b : Finset Nat) :
    parts.foldl (classifyStep prim) (a, b) =
      (a + ((numericVals parts).filter fun q => decide (q ∈ prim)).length,
       b ∪ ((numericVals parts).filter fun q => decide (q ∉ prim)).toFinset) := by
  induction parts generalizing a b with
  | nil => simp [numericVals]
  | cons s rest ih =>
    rw [List.foldl_cons]
    by_cases hd : pyIsdigit s
    · by_cases hp : pyInt s ∈ prim
      · rw [show classifyStep prim (a, b) s = (a + 1, b) by
          simp [classifyStep, hd, hp]]
        rw [ih, numericVals_cons]
        simp [hd, List.filter_cons, hp]
        omega
      · rw [show classifyStep prim (a, b) s = (a, insert (pyInt s) b) by
          simp [classifyStep, hd, hp]]
        rw [ih, numericVals_cons]
        simp [hd, List.filter_cons, hp, Finset.insert_union, Finset.union_insert]
    · rw [show classifyStep prim (a, b) s = (a, b) by simp [classifyStep, hd]]
      rw [ih, numericVals_cons]
      simp [hd]

theorem classifyParts_eq (prim : Finset Nat) (parts : List String) :
    classifyParts prim parts =
      (((numericVals parts).filter fun q => decide (q ∈ prim)).length,
       ((numericVals parts).filter fun q => decide (q ∉ prim)).toFinset) := by
  rw [classifyParts, classify_foldl]; simp

theorem mem_classifyParts_snd (prim : Finset Nat) (parts : List String) (p : Nat) :
    p ∈ (classifyParts prim parts).2 ↔ p ∈ numericVals parts ∧ p ∉ prim := by
  simp [classifyParts_eq, List.mem_filter]

/-! ### Characterization of the primary index `dev2parts` -/

theorem mem_insStep (f : Nat → String) (acc : String → Finset Nat)
    (pd : Nat × Nat) (d : String) (p : Nat) :
    p ∈ insStep f acc pd d ↔ p ∈ acc d ∨ (pd.1 = p ∧ f pd.2 = d) := by
  by_cases h : d = f pd.2 <;>
    simp [insStep, h, Finset.mem_insert, eq_comm, or_comm]

theorem mem_foldl_insStep (f : Nat → String) (l : List (Nat × Nat))
    (acc : String → Finset Nat) (d : String) (p : Nat) :
    p ∈ l.foldl (insStep f) acc d ↔
      p ∈ acc d ∨ ∃ pd ∈ l, pd.1 = p ∧ f pd.2 = d := by
  induction l generalizing acc with
  | nil => simp
  | cons pd l ih =>
    rw [List.foldl_cons, ih, mem_insStep]
    simp only [List.mem_cons]
    constructor
    · rintro ((h | h) | ⟨x, hx, hp⟩)
      · exact Or.inl h
      · exact Or.inr ⟨pd, Or.inl rfl, h⟩
      · exact Or.inr ⟨x, Or.inr hx, hp⟩
    · rintro (h | ⟨x, (rfl | hx), hp⟩)
      · exact Or.inl (Or.inl h)
      · exact Or.inl (Or.inr hp)
      · exact Or.inr ⟨x, hx, hp⟩

theorem mem_addRow (ring : Ring) (acc : String → Finset Nat)
    (row : List Nat) (d : String) (p : Nat) :
    p ∈ addRow ring acc row d ↔
      p ∈ acc d ∨ ∃ pd ∈ row.enum, pd.1 = p ∧ devNameAt ring pd.2 = d := by
  rw [addRow, mem_foldl_insStep]

theorem mem_foldl_addRow (ring : Ring) (rows : List (List Nat))
    (acc : String → Finset Nat) (d : String) (p : Nat) :
    p ∈ rows.foldl (addRow ring) acc d ↔
      p ∈ acc d ∨
        ∃ row ∈ rows, ∃ pd ∈ row.enum, pd.1 = p ∧ devNameAt ring pd.2 = d := by
  induction rows generalizing acc with
  | nil => simp
  | cons row rows ih =>
    rw [List.foldl_cons, ih, mem_addRow]
    simp only [List.mem_cons]
    constructor
    · rintro ((h | h) | ⟨r, hr, hp⟩)
      · exact Or.inl h
      · exact Or.inr ⟨row, Or.inl rfl, h⟩
      · exact Or.inr ⟨r, Or.inr hr, hp⟩
    · rintro (h | ⟨r, (rfl | hr), hp⟩)
      · exact Or.inl (Or.inl h)
      · exact Or.inl (Or.inr hp)
      · exact Or.inr ⟨r, hr, hp⟩

/-- Membership in the primary index, in terms of the raw ring table. -/
theorem mem_dev2parts (ring : Ring) (d : String) (p : Nat) :
    p ∈ dev2parts ring d ↔
      ∃ row ∈ ring.replica2part2dev_id, ∃ id,
        row[p]? = some id ∧ devNameAt ring id = d := by
  rw [dev2parts, mem_foldl_addRow]
  simp only [Finset.not_mem_empty, false_or]
  constructor
  · rintro ⟨row, hrow, ⟨i, id⟩, hmem, hp, hname⟩
    subst hp
    exact ⟨row, hrow, id, List.mk_mem_enum_iff_getElem?.1 hmem, hname⟩
  · rintro ⟨row, hrow, id, hget, hname⟩
    exact ⟨row, hrow, (p, id), List.mk_mem_enum_iff_getElem?.2 hget, rfl, hname⟩

/-- Membership in `assignedDevs`. -/
theorem mem_assignedDevs (ring : Ring) (p : Nat) (d : String) :
    d ∈ assignedDevs ring p ↔
      ∃ row ∈ ring.replica2part2dev_id, ∃ id,
        row[p]? = some id ∧ devNameAt ring id = d := by
  simp only [assignedDevs, List.mem_filterMap, Option.map_eq_some', List.get?_eq_getElem?]

theorem length_filterMap_of_isSome {α β : Type} (f : α → Option β) (l : List α)
    (h : ∀ a ∈ l, (f a).isSome) : (l.filterMap f).length = l.length := by
  induction l with
  | nil => rfl
  | cons a l ih =>
    rw [List.filterMap_cons]
    cases hfa : f a with
    | none =>
      have := h a (by simp)
      rw [hfa] at this
      simp at this
    | some b =>
      simp only [List.length_cons]
      rw [ih fun a ha => h a (by simp [ha])]

/-- A device name resolved from an in-range id is in the device table. -/
theorem devNameAt_mem (ring : Ring) (id : Nat) (h : id < ring.devs.length) :
    devNameAt ring id ∈ ring.devs.map Dev.device := by
  rw [devNameAt, List.get?_eq_getElem?, List.getElem?_eq_getElem h]
  exact List.mem_map.2 ⟨ring.devs[id], List.getElem_mem h, rfl⟩

/-- A device name absent from the ring's device table has an empty primary
set (given in-range device ids). -/
theorem dev2parts_of_not_mem (ring : Ring) (d : String) (hv : ring.valid)
    (hd : d ∉ ring.devs.map Dev.device) : dev2parts ring d = ∅ := by
  rw [Finset.eq_empty_iff_forall_not_mem]
  intro p hp
  rw [mem_dev2parts] at hp
  obtain ⟨row, hrow, id, hget, hname⟩ := hp
  have hidmem : id ∈ row := List.getElem?_mem hget
  have hlt : id < ring.devs.length := hv row hrow id hidmem
  exact hd (hname ▸ devNameAt_mem ring id hlt)

/-- C1: each locally found numeric partition is classified as primary
exactly when it is in the device's primary set and as a handoff exactly
otherwise; the classifications are exclusive and exhaustive; and a device
directory absent from the ring's device table has an empty primary set, so
all its local partitions become handoffs. -/
theorem c1_classification (prim : Finset Nat) (parts : List String) (p : Nat)
    (ring : Ring) (d : String) :
    ((classifyParts prim parts).1 =
      ((numericVals parts).filter fun q => decide (q ∈ prim)).length)
    ∧ (p ∈ (classifyParts prim parts).2 ↔ p ∈ numericVals parts ∧ p ∉ prim)
    ∧ (p ∈ (classifyParts prim parts).2 → p ∉ prim)
    ∧ (p ∈ numericVals parts → p ∈ prim ∨ p ∈ (classifyParts prim parts).2)
    ∧ (ring.valid → d ∉ ring.devs.map Dev.device →
        (dev2parts ring d = ∅ ∧
          ((classifyParts (dev2parts ring d) parts).1 = 0 ∧
            ∀ q ∈ numericVals parts, q ∈ (classifyParts (dev2parts ring d) parts).2))) := by
  refine ⟨by rw [classifyParts_eq], mem_classifyParts_snd prim parts p,
    fun h => ((mem_classifyParts_snd prim parts p).1 h).2,
    fun h => ?_, fun hv hd => ?_⟩
  · by_cases hp : p ∈ prim
    · exact Or.inl hp
    · exact Or.inr ((mem_classifyParts_snd prim parts p).2 ⟨h, hp⟩)
  · have hempty := dev2parts_of_not_mem ring d hv hd
    refine ⟨hempty, ?_, fun q hq => ?_⟩
    · rw [classifyParts_eq, hempty]
      simp
    · rw [mem_classifyParts_snd, hempty]
      simp [hq]

/-- C2: every partition index covered by the ring's (dense) table appears
in the primary sets of exactly `replicaCount` devices, counting one
occurrence per replica. -/
theorem c2_replica_coverage (ring : Ring) (p : Nat)
    (hdense : ∀ row ∈ ring.replica2part2dev_id, p < row.length) :
    (assignedDevs ring p).length = replicaCount ring
    ∧ ∀ d, (p ∈ dev2parts ring d ↔ d ∈ assignedDevs ring p) := by
  constructor
  · rw [assignedDevs, replicaCount]
    refine length_filterMap_of_isSome _ _ fun row hrow => ?_
    rw [List.get?_eq_getElem?, List.getElem?_eq_getElem (hdense row hrow)]
    rfl
  · intro d
    rw [mem_dev2parts, mem_assignedDevs]

/-! ### The device scan loop -/

theorem scanLoop_enoent_cons (prim : String → Finset Nat)
    (listing : String → ListDirResult) (d : String) (rest : List String)
    (pc : String → Nat) (ho : String → Finset Nat) (h : listing d = .enoent) :
    scanLoop prim listing (d :: rest) pc ho = scanLoop prim listing rest pc ho := by
  rw [scanLoop, h]

theorem scanLoop_ioError (prim : String → Finset Nat)
    (listing : String → ListDirResult) (ds : List String)
    (pc : String → Nat) (ho : String → Finset Nat) (d : String)
    (hd : d ∈ ds) (h : listing d = .ioError) :
    scanLoop prim listing ds pc ho = none := by
  induction ds generalizing pc ho with
  | nil => cases hd
  | cons e rest ih =>
    rw [scanLoop]
    rcases List.mem_cons.1 hd with rfl | hd'
    · rw [h]
    · cases hl : listing e with
      | ioError => rfl
      | enoent => exact ih pc ho hd'
      | ok parts => exact ih _ _ hd'

theorem scanLoop_enoent_preserve (prim : String → Finset Nat)
    (listing : String → ListDirResult) (ds : List String)
    (pc₀ : String → Nat) (ho₀ : String → Finset Nat)
    (pc : String → Nat) (ho : String → Finset Nat) (d : String)
    (h : listing d = .enoent)
    (hs : scanLoop prim listing ds pc₀ ho₀ = some (pc, ho)) :
    pc d = pc₀ d ∧ ho d = ho₀ d := by
  induction ds generalizing pc₀ ho₀ with
  | nil =>
    rw [scanLoop] at hs
    obtain ⟨h1, h2⟩ := Prod.mk.injEq .. ▸ Option.some.inj hs
    rw [← h1, ← h2]
    exact ⟨rfl, rfl⟩
  | cons e rest ih =>
    rw [scanLoop] at hs
    cases hl : listing e with
    | ioError => rw [hl] at hs; cases hs
    | enoent => rw [hl] at hs; exact ih pc₀ ho₀ hs
    | ok parts =>
      rw [hl] at hs
      have hne : d ≠ e := by
        intro he
        rw [he, hl] at h
        cases h
      have := ih _ _ hs
      simpa [hne] using this

theorem scanLoop_eq_scanTotal (prim : String → Finset Nat)
    (listing : String → ListDirResult) (ds : List String)
    (pc₀ : String → Nat) (ho₀ : String → Finset Nat)
    (h : ∀ d ∈ ds, listing d ≠ .ioError) :
    scanLoop prim listing ds pc₀ ho₀ =
      some (fun x => pc₀ x + (scanTotal prim listing ds).1 x,
            fun x => ho₀ x ∪ (scanTotal prim listing ds).2 x) := by
  induction ds generalizing pc₀ ho₀ with
  | nil => rw [scanLoop, scanTotal]; simp
  | cons d rest ih =>
    have hrest : ∀ e ∈ rest, listing e ≠ .ioError := fun e he => h e (by simp [he])
    cases hl : listing d with
    | ioError => exact absurd hl (h d (by simp))
    | enoent =>
      rw [scanLoop, hl, ih pc₀ ho₀ hrest]
      have hcl : classifyParts (prim d) (localParts listing d) = (0, ∅) := by
        rw [localParts, hl]; rfl
      rw [scanTotal]
      simp only [hcl]
      congr 1
      refine Prod.ext ?_ ?_ <;> funext x <;> by_cases hx : x = d <;> simp [hx]
    | ok parts =>
      rw [scanLoop, hl]
      refine (ih _ _ hrest).trans ?_
      have hcl : classifyParts (prim d) (localParts listing d) =
          classifyParts (prim d) parts := by rw [localParts, hl]
      rw [scanTotal]
      simp only [hcl]
      congr 1
      refine Prod.ext ?_ ?_ <;> funext x <;> by_cases hx : x = d <;>
        simp [hx, Nat.add_assoc, Finset.union_assoc]

/-- The scan as run inside `check` (empty accumulators) never fails and
computes `scanTotal` when no listing yields a non-ENOENT error. -/
theorem scanLoop_run (prim : String → Finset Nat)
    (listing : String → ListDirResult) (ds : List String)
    (h : ∀ d ∈ ds, listing d ≠ .ioError) :
    scanLoop prim listing ds (fun _ => 0) (fun _ => ∅) =
      some (scanTotal prim listing ds) := by
  rw [scanLoop_eq_scanTotal prim listing ds _ _ h]
  congr 1
  refine Prod.ext ?_ ?_ <;> funext x <;> simp

/-- C4: a missing partitions directory (ENOENT) contributes zero local
partitions and the scan continues with the next device; any other listing
failure aborts the scan, and at the check level the whole invocation ends
fatally with no metric emitted. -/
theorem c4_listing_errors :
    (∀ (prim : String → Finset Nat) (listing : String → ListDirResult)
        (d : String) (rest : List String) (pc : String → Nat)
        (ho : String → Finset Nat), listing d = .enoent →
      scanLoop prim listing (d :: rest) pc ho = scanLoop prim listing rest pc ho)
    ∧ (∀ (prim : String → Finset Nat) (listing : String → ListDirResult)
        (ds : List String) (pc : String → Nat) (ho : String → Finset Nat)
        (d : String), listing d = .enoent →
        scanLoop prim listing ds (fun _ => 0) (fun _ => ∅) = some (pc, ho) →
      pc d = 0 ∧ ho d = ∅)
    ∧ (∀ (prim : String → Finset Nat) (listing : String → ListDirResult)
        (ds : List String) (pc : String → Nat) (ho : String → Finset Nat)
        (d : String), d ∈ ds → listing d = .ioError →
      scanLoop prim listing ds pc ho = none)
    ∧ (∀ (lib : SwiftLib) (fs : FS) (inst : Instance) (ds : List String)
        (d : String),
        fs.pathExists (inst.devices.getD "/srv/node") = true →
        fs.isDir (inst.devices.getD "/srv/node") = true →
        fs.pathExists (inst.ring.getD "/etc/swift/object.ring.gz") = true →
        fs.isFile (inst.ring.getD "/etc/swift/object.ring.gz") = true →
        (pyLower (inst.granularity.getD "server") = "server" ∨
          pyLower (inst.granularity.getD "server") = "device") →
        fs.listDir (inst.devices.getD "/srv/node") = .ok ds →
        d ∈ ds →
        fs.listDir (pathJoin (pathJoin (inst.devices.getD "/srv/node") d)
          (get_ring_and_datadir lib
            (inst.ring.getD "/etc/swift/object.ring.gz")).2.2) = .ioError →
      check lib fs inst = .fatal ∧ emitted (check lib fs inst) = []) := by
  refine ⟨scanLoop_enoent_cons, ?_, scanLoop_ioError, ?_⟩
  · intro prim listing ds pc ho d he hs
    exact scanLoop_enoent_preserve prim listing ds _ _ pc ho d he hs
  · intro lib fs inst ds d h1 h2 h3 h4 h5 h6 hd hio
    have hfatal : check lib fs inst = .fatal := by
      unfold check
      simp only [h1, h2, h3, h4, Bool.not_true, Bool.or_self, Bool.false_eq_true,
        if_false]
      rw [if_neg (by tauto)]
      simp only [h6]
      rw [scanLoop_ioError _ _ ds _ _ d hd hio]
    exact ⟨hfatal, by rw [hfatal]; rfl⟩

/-! ### Emission -/

/-- The configured device root (`instance.get('devices', '/srv/node')`). -/
def rootOf (inst : Instance) : String :=
  inst.devices.getD "/srv/node"

/-- The configured ring path
(`instance.get('ring', '/etc/swift/object.ring.gz')`). -/
def ringPathOf (inst : Instance) : String :=
  inst.ring.getD "/etc/swift/object.ring.gz"

/-- The lowercased granularity option. -/
def granOf (inst : Instance) : String :=
  pyLower (inst.granularity.getD "server")

/-- The listing the scan performs for a given device directory:
`os.listdir(os.path.join(device_root, device_dir, datadir))`. -/
def scanListing (lib : SwiftLib) (fs : FS) (inst : Instance) :
    String → ListDirResult :=
  fun d => fs.listDir (pathJoin (pathJoin (rootOf inst) d)
    (get_ring_and_datadir lib (ringPathOf inst)).2.2)

/-- The primary index the check builds for the configured ring. -/
def primOf (lib : SwiftLib) (inst : Instance) : String → Finset Nat :=
  dev2parts (get_ring_and_datadir lib (ringPathOf inst)).1

/-- The ring's logical name for the configured ring path. -/
def ringNameOf (lib : SwiftLib) (inst : Instance) : String :=
  (get_ring_and_datadir lib (ringPathOf inst)).2.1

/-- The scan's accumulated result for the configured check. -/
def scanOf (lib : SwiftLib) (fs : FS) (inst : Instance) (ds : List String) :
    (String → Nat) × (String → Finset Nat) :=
  scanTotal (primOf lib inst) (scanListing lib fs inst) ds

theorem length_flatMap_pair {α β : Type} (l : List α) (f g : α → β) :
    (l.flatMap fun a => [f a, g a]).length = 2 * l.length := by
  induction l with
  | nil => rfl
  | cons a l ih =>
    rw [List.flatMap_cons]
    simp only [List.length_append, List.length_cons, ih, List.length_nil]
    omega

/-- C6: at `server` granularity the check emits exactly one primary gauge
(the sum over distinct scanned device directories of their primary counts)
and one handoff gauge (the sum of handoff-set cardinalities), both carrying
the ring dimension and caller tags with no device dimension. -/
theorem c6_server_emission (lib : SwiftLib) (fs : FS) (inst : Instance)
    (ds : List String)
    (h1 : fs.pathExists (rootOf inst) = true)
    (h2 : fs.isDir (rootOf inst) = true)
    (h3 : fs.pathExists (ringPathOf inst) = true)
    (h4 : fs.isFile (ringPathOf inst) = true)
    (h5 : granOf inst = "server")
    (h6 : fs.listDir (rootOf inst) = .ok ds)
    (h7 : ∀ d ∈ ds, scanListing lib fs inst d ≠ .ioError) :
    check lib fs inst = .ok
      [⟨"swift_handoffs.primary",
        (ds.dedup.map (scanOf lib fs inst ds).1).sum,
        set_dimensions (ringNameOf lib inst) inst⟩,
       ⟨"swift_handoffs.handoffs",
        (ds.dedup.map fun d => ((scanOf lib fs inst ds).2 d).card).sum,
        set_dimensions (ringNameOf lib inst) inst⟩]
    ∧ (set_dimensions (ringNameOf lib inst) inst).device = none := by
  refine ⟨?_, rfl⟩
  rw [scanOf, primOf, ringNameOf]
  simp only [scanListing, rootOf, ringPathOf]
  rw [rootOf] at h1 h2 h6
  rw [ringPathOf] at h3 h4
  rw [granOf] at h5
  simp only [scanListing, rootOf, ringPathOf] at h7
  unfold check
  simp only [h1, h2, h3, h4, Bool.not_true, Bool.or_self, Bool.false_eq_true,
    if_false]
  rw [if_neg (by rw [h5]; tauto)]
  simp only [h6, scanLoop_run _ _ ds h7, ringPathOf]
  rw [if_pos h5]
  rfl

/-- C7: at `device` granularity the check emits, for every observed device
directory (zero-partition devices included), one primary gauge and one
handoff gauge tagged with that device's directory name — two gauges per
observed device directory. -/
theorem c7_device_emission (lib : SwiftLib) (fs : FS) (inst : Instance)
    (ds : List String)
    (h1 : fs.pathExists (rootOf inst) = true)
    (h2 : fs.isDir (rootOf inst) = true)
    (h3 : fs.pathExists (ringPathOf inst) = true)
    (h4 : fs.isFile (ringPathOf inst) = true)
    (h5 : granOf inst = "device")
    (h6 : fs.listDir (rootOf inst) = .ok ds)
    (h7 : ∀ d ∈ ds, scanListing lib fs inst d ≠ .ioError) :
    check lib fs inst = .ok
      (ds.flatMap fun device =>
        [⟨"swift_handoffs.primary", (scanOf lib fs inst ds).1 device,
          { set_dimensions (ringNameOf lib inst) inst with device := some device }⟩,
         ⟨"swift_handoffs.handoffs", ((scanOf lib fs inst ds).2 device).card,
          { set_dimensions (ringNameOf lib inst) inst with device := some device }⟩])
    ∧ (emitted (check lib fs inst)).length = 2 * ds.length := by
  have hmain : check lib fs inst = .ok
      (ds.flatMap fun device =>
        [⟨"swift_handoffs.primary", (scanOf lib fs inst ds).1 device,
          { set_dimensions (ringNameOf lib inst) inst with device := some device }⟩,
         ⟨"swift_handoffs.handoffs", ((scanOf lib fs inst ds).2 device).card,
          { set_dimensions (ringNameOf lib inst) inst with device := some device }⟩]) := by
    rw [scanOf, primOf, ringNameOf]
    simp only [scanListing, rootOf, ringPathOf]
    rw [rootOf] at h1 h2 h6
    rw [ringPathOf] at h3 h4
    rw [granOf] at h5
    simp only [scanListing, rootOf, ringPathOf] at h7
    unfold check
    simp only [h1, h2, h3, h4, Bool.not_true, Bool.or_self, Bool.false_eq_true,
      if_false]
    rw [if_neg (by rw [h5]; tauto)]
    simp only [h6, scanLoop_run _ _ ds h7, ringPathOf]
    rw [if_neg (by rw [h5]; decide)]
    rfl
  refine ⟨hmain, ?_⟩
  rw [hmain, emitted, length_flatMap_pair]

/-- C3 counterexample: two distinct purely-numeric entry names (`"5"` and
`"05"`) denote the same partition number; the handoff set keeps one element
while two numeric entries were scanned, so `primaryCount + |handoffs|` is 1,
not 2. -/
theorem c3_counterexample :
    (classifyParts (∅ : Finset Nat) ["5", "05"]).1 +
        (classifyParts (∅ : Finset Nat) ["5", "05"]).2.card = 1
    ∧ (["5", "05"].filter pyIsdigit).length = 2 := by
  decide

/-- C3 (amended): provided the numeric entry names of a listing denote
pairwise-distinct partition numbers (true of canonical swift partition
directories), `primaryCount + |handoffPartitions|` equals the number of
purely-numeric entries, non-numeric entries contributing to neither;
and in Scenario A (primary set `{1,2,3}`, on-disk entries `1, 2, 5`) the
result is 2 primaries and handoff set `{5}`. -/
theorem c3_partition_split :
    (∀ (prim : Finset Nat) (parts : List String), (numericVals parts).Nodup →
      (classifyParts prim parts).1 + (classifyParts prim parts).2.card =
        (parts.filter pyIsdigit).length)
    ∧ classifyParts ({1, 2, 3} : Finset Nat) ["1", "2", "5"] = (2, {5}) := by
  constructor
  · intro prim parts h
    rw [classifyParts_eq]
    simp only
    rw [List.toFinset_card_of_nodup (List.Nodup.filter _ h)]
    rw [← List.countP_eq_length_filter, ← List.countP_eq_length_filter]
    have hl : (parts.filter pyIsdigit).length = (numericVals parts).length := by
      rw [numericVals, List.length_map]
    rw [hl, List.length_eq_countP_add_countP (fun q => decide (q ∈ prim))]
    congr 1
    simp [decide_not]
  · decide

/-- C5: each configuration error — invalid device root, invalid ring path,
invalid granularity — produces an error result carrying no gauges, and the
outcome is unchanged under any replacement of the ring library and of the
directory-listing map: the error is decided before any ring loading or
scanning. -/
theorem c5_config_errors (lib lib' : SwiftLib) (fs : FS)
    (ld : String → ListDirResult) (inst : Instance) :
    (¬(fs.pathExists (rootOf inst) = true ∧ fs.isDir (rootOf inst) = true) →
      check lib fs inst = .configError "devices must exist or be a directory"
      ∧ check lib' { fs with listDir := ld } inst =
          .configError "devices must exist or be a directory"
      ∧ emitted (check lib fs inst) = [])
    ∧ (fs.pathExists (rootOf inst) = true → fs.isDir (rootOf inst) = true →
       ¬(fs.pathExists (ringPathOf inst) = true
          ∧ fs.isFile (ringPathOf inst) = true) →
      check lib fs inst = .configError "ring must exist"
      ∧ check lib' { fs with listDir := ld } inst = .configError "ring must exist"
      ∧ emitted (check lib fs inst) = [])
    ∧ (fs.pathExists (rootOf inst) = true → fs.isDir (rootOf inst) = true →
       fs.pathExists (ringPathOf inst) = true → fs.isFile (ringPathOf inst) = true →
       granOf inst ≠ "server" → granOf inst ≠ "device" →
      check lib fs inst = .configError "granularity must be either server or drive"
      ∧ check lib' { fs with listDir := ld } inst =
          .configError "granularity must be either server or drive"
      ∧ emitted (check lib fs inst) = []) := by
  refine ⟨fun h => ?_, fun hpe hid h => ?_, fun hpe hid hpe' hif hs hd => ?_⟩
  · rw [rootOf] at h
    have hcond : (!fs.pathExists (inst.devices.getD "/srv/node")
        || !fs.isDir (inst.devices.getD "/srv/node")) = true := by
      cases hb : fs.pathExists (inst.devices.getD "/srv/node") <;>
        cases hc : fs.isDir (inst.devices.getD "/srv/node") <;> simp_all
    refine ⟨?_, ?_, ?_⟩
    · unfold check
      simp only [hcond, if_true]
    · unfold check
      simp only [hcond, if_true]
    · unfold check
      simp only [hcond, if_true]
      rfl
  · rw [rootOf] at hpe hid
    rw [ringPathOf] at h
    have hcond2 : (!fs.pathExists (inst.ring.getD "/etc/swift/object.ring.gz")
        || !fs.isFile (inst.ring.getD "/etc/swift/object.ring.gz")) = true := by
      cases hb : fs.pathExists (inst.ring.getD "/etc/swift/object.ring.gz") <;>
        cases hc : fs.isFile (inst.ring.getD "/etc/swift/object.ring.gz") <;>
        simp_all
    refine ⟨?_, ?_, ?_⟩
    · unfold check
      simp only [hpe, hid, Bool.not_true, Bool.or_self, Bool.false_eq_true,
        if_false, hcond2, if_true]
    · unfold check
      simp only [hpe, hid, Bool.not_true, Bool.or_self, Bool.false_eq_true,
        if_false, hcond2, if_true]
    · unfold check
      simp only [hpe, hid, Bool.not_true, Bool.or_self, Bool.false_eq_true,
        if_false, hcond2, if_true]
      rfl
  · rw [rootOf] at hpe hid
    rw [ringPathOf] at hpe' hif
    rw [granOf] at hs hd
    refine ⟨?_, ?_, ?_⟩
    · unfold check
      simp only [hpe, hid, hpe', hif, Bool.not_true, Bool.or_self,
        Bool.false_eq_true, if_false]
      rw [if_pos ⟨hs, hd⟩]
    · unfold check
      simp only [hpe, hid, hpe', hif, Bool.not_true, Bool.or_self,
        Bool.false_eq_true, if_false]
      rw [if_pos ⟨hs, hd⟩]
    · unfold check
      simp only [hpe, hid, hpe', hif, Bool.not_true, Bool.or_self,
        Bool.false_eq_true, if_false]
      rw [if_pos ⟨hs, hd⟩]
      rfl

/-- C8: for every ring path, the derived data directory is
`get_data_dir(policy)` when the ring's base name is `"object"`, and the
base name with `"s"` appended otherwise; the logical ring name is the
basename of the path up to the first dot. -/
theorem c8_datadir (lib : SwiftLib) (path base : String) (policy : Nat)
    (h : lib.split_policy_string (ring_name_of path) = (base, policy)) :
    ((get_ring_and_datadir lib path).2.1 = ring_name_of path)
    ∧ (base = "object" →
        (get_ring_and_datadir lib path).2.2 = lib.get_data_dir policy)
    ∧ (base ≠ "object" →
        (get_ring_and_datadir lib path).2.2 = base ++ "s") := by
  refine ⟨rfl, fun hb => ?_, fun hb => ?_⟩
  · simp only [get_ring_and_datadir, h]
    rw [if_pos hb]
  · simp only [get_ring_and_datadir, h]
    rw [if_neg hb]

/-- C9: the check's outcome is a pure function of the filesystem snapshot
(no state crosses invocations): snapshots with identical observations give
identical results, and the scan result depends only on the listings of the
scanned directories. -/
theorem c9_deterministic (lib : SwiftLib) (fs₁ fs₂ : FS) (inst : Instance)
    (hpe : ∀ p, fs₁.pathExists p = fs₂.pathExists p)
    (hid : ∀ p, fs₁.isDir p = fs₂.isDir p)
    (hif : ∀ p, fs₁.isFile p = fs₂.isFile p)
    (hld : ∀ p, fs₁.listDir p = fs₂.listDir p) :
    (check lib fs₁ inst = check lib fs₂ inst)
    ∧ ∀ (prim : String → Finset Nat) (l₁ l₂ : String → ListDirResult)
        (ds : List String) (pc : String → Nat) (ho : String → Finset Nat),
        (∀ d ∈ ds, l₁ d = l₂ d) →
        scanLoop prim l₁ ds pc ho = scanLoop prim l₂ ds pc ho := by
  have hfs : fs₁ = fs₂ := by
    cases fs₁
    cases fs₂
    simp only [FS.mk.injEq]
    exact ⟨funext hpe, funext hid, funext hif, funext hld⟩
  refine ⟨by rw [hfs], ?_⟩
  intro prim l₁ l₂ ds pc ho hagree
  induction ds generalizing pc ho with
  | nil => rfl
  | cons d rest ih =>
    have hd : l₁ d = l₂ d := hagree d (by simp)
    have hrest : ∀ e ∈ rest, l₁ e = l₂ e := fun e he => hagree e (by simp [he])
    rw [scanLoop, scanLoop, hd]
    cases hl : l₂ d with
    | ioError => rfl
    | enoent => exact ih _ _ hrest
    | ok parts => exact ih _ _ hrest

/-- The check reads its instance only through the device root, the ring
path, the lowercased granularity, and the tags. -/
theorem check_congr (lib : SwiftLib) (fs : FS) (i₁ i₂ : Instance)
    (hdev : i₁.devices = i₂.devices) (hring : i₁.ring = i₂.ring)
    (hgran : pyLower (i₁.granularity.getD "server") =
      pyLower (i₂.granularity.getD "server"))
    (htags : i₁.tags = i₂.tags) :
    check lib fs i₁ = check lib fs i₂ := by
  obtain ⟨d₁, r₁, g₁, t₁⟩ := i₁
  obtain ⟨d₂, r₂, g₂, t₂⟩ := i₂
  simp only at hdev hring htags hgran
  subst hdev hring htags
  unfold check
  simp only [set_dimensions]
  rw [hgran]

/-- C10: the granularity option is matched case-insensitively — any two
values with the same lowercase form behave identically — and, when the
device-root and ring-path checks pass, the granularity configuration error
occurs exactly when the lowercased value is neither "server" nor
"device". -/
theorem c10_granularity_case (lib : SwiftLib) (fs : FS) (inst : Instance)
    (g g' : String) :
    (pyLower g = pyLower g' →
      check lib fs { inst with granularity := some g } =
        check lib fs { inst with granularity := some g' })
    ∧ (fs.pathExists (rootOf inst) = true → fs.isDir (rootOf inst) = true →
       fs.pathExists (ringPathOf inst) = true → fs.isFile (ringPathOf inst) = true →
      (check lib fs { inst with granularity := some g } =
          .configError "granularity must be either server or drive"
        ↔ ¬(pyLower g = "server" ∨ pyLower g = "device"))) := by
  constructor
  · intro h
    exact check_congr lib fs _ _ rfl rfl (by simpa using h) rfl
  · intro hpe hid hpe' hif
    rw [rootOf] at hpe hid
    rw [ringPathOf] at hpe' hif
    constructor
    · intro hc
      intro hvalid
      have hne : check lib fs { inst with granularity := some g } ≠
          .configError "granularity must be either server or drive" := by
        unfold check
        simp only [hpe, hid, hpe', hif, Bool.not_true, Bool.or_self,
          Bool.false_eq_true, if_false, Option.getD_some]
        rw [if_neg (by tauto)]
        cases hl : fs.listDir (inst.devices.getD "/srv/node") with
        | ok device_dirs =>
          cases hs : scanLoop
              (dev2parts (get_ring_and_datadir lib
                (inst.ring.getD "/etc/swift/object.ring.gz")).1)
              (fun d => fs.listDir (pathJoin (pathJoin (inst.devices.getD "/srv/node") d)
                (get_ring_and_datadir lib
                  (inst.ring.getD "/etc/swift/object.ring.gz")).2.2))
              device_dirs (fun _ => 0) (fun _ => ∅) with
          | none => simp [hs]
          | some pcho =>
            by_cases hg : pyLower g = "server"
            · simp [hs, hg]
            · simp [hs, hg]
        | enoent => simp
        | ioError => simp
      exact hne hc
    · intro hvalid
      unfold check
      simp only [hpe, hid, hpe', hif, Bool.not_true, Bool.or_self,
        Bool.false_eq_true, if_false, Option.getD_some]
      rw [if_pos (by tauto)]

/-! ### Concrete fixtures for witnesses -/

/-- One-replica ring: device `sda` holds partitions 0–1, `sdb` 2–4. -/
def ringW : Ring :=
  { replica2part2dev_id := [[0, 0, 1, 1, 1]], devs := [⟨"sda"⟩, ⟨"sdb"⟩] }

/-- Two-replica, two-partition ring over devices `sda1`, `sdb1`. -/
def ringW2 : Ring :=
  { replica2part2dev_id := [[0, 1], [1, 0]], devs := [⟨"sda1"⟩, ⟨"sdb1"⟩] }

/-- A ring library fixture: every path loads `ringW`, policies are trivial,
and the object data directory is `objects`. -/
def libW : SwiftLib :=
  { loadRing := fun _ => ringW,
    split_policy_string := fun s => (s, 0),
    get_data_dir := fun _ => "objects" }

/-- Snapshot: two devices; `sda` holds partitions 0, 1, 7 (2 primaries,
1 handoff), `sdb` holds 2, 3, 4 (3 primaries). -/
def fsW : FS :=
  { pathExists := fun _ => true, isDir := fun _ => true, isFile := fun _ => true,
    listDir := fun p =>
      if p = "/srv/node" then .ok ["sda", "sdb"]
      else if p = "/srv/node/sda/objects" then .ok ["0", "1", "7"]
      else if p = "/srv/node/sdb/objects" then .ok ["2", "3", "4"]
      else .enoent }

/-- The same snapshot as `fsW`, written with its listing branches in a
different order: observationally identical. -/
def fsW9 : FS :=
  { pathExists := fun _ => true, isDir := fun _ => true, isFile := fun _ => true,
    listDir := fun p =>
      if p = "/srv/node/sda/objects" then .ok ["0", "1", "7"]
      else if p = "/srv/node" then .ok ["sda", "sdb"]
      else if p = "/srv/node/sdb/objects" then .ok ["2", "3", "4"]
      else .enoent }

/-- Snapshot where listing the only device's partitions fails with a
non-ENOENT error. -/
def fsW4 : FS :=
  { pathExists := fun _ => true, isDir := fun _ => true, isFile := fun _ => true,
    listDir := fun p => if p = "/srv/node" then .ok ["sda"] else .ioError }

/-- Default configuration: all options defaulted. -/
def instW : Instance := {}

/-- Configuration requesting device granularity. -/
def instW7 : Instance := { granularity := some "device" }

/-- Configuration with the invalid granularity value `"drive"`. -/
def instW5 : Instance := { granularity := some "drive" }

theorem fsW9_listDir (p : String) : fsW.listDir p = fsW9.listDir p := by
  by_cases h1 : p = "/srv/node"
  · subst h1; decide
  · by_cases h2 : p = "/srv/node/sda/objects"
    · subst h2; decide
    · by_cases h3 : p = "/srv/node/sdb/objects"
      · subst h3; decide
      · simp [fsW, fsW9, h1, h2, h3]

/-! ### Witnesses -/

/-- C1 witness: `ghost` is not in `ringW`'s device table, so its primary
set is empty. -/
theorem c1_witness : dev2parts ringW "ghost" = ∅ :=
  ((c1_classification ∅ [] 0 ringW "ghost").2.2.2.2 (by decide) (by decide)).1

/-- C2 witness: in the two-replica ring, partition 0 is assigned to exactly
two devices, and membership in the primary index matches assignment. -/
theorem c2_witness :
    (assignedDevs ringW2 0).length = replicaCount ringW2
    ∧ (0 ∈ dev2parts ringW2 "sda1" ↔ "sda1" ∈ assignedDevs ringW2 0) :=
  ⟨(c2_replica_coverage ringW2 0 (by decide)).1,
   (c2_replica_coverage ringW2 0 (by decide)).2 "sda1"⟩

/-- C3 witness: Scenario A's listing has pairwise-distinct partition
numbers, so the conservation equation holds on it. -/
theorem c3_witness :
    (classifyParts ({1, 2, 3} : Finset Nat) ["1", "2", "5"]).1 +
        (classifyParts ({1, 2, 3} : Finset Nat) ["1", "2", "5"]).2.card =
      (["1", "2", "5"].filter pyIsdigit).length :=
  c3_partition_split.1 {1, 2, 3} ["1", "2", "5"] (by decide)

/-- C4 witness: a non-ENOENT listing failure on the single device makes the
whole check fatal with nothing emitted. -/
theorem c4_witness :
    check libW fsW4 instW = .fatal ∧ emitted (check libW fsW4 instW) = [] :=
  c4_listing_errors.2.2.2 libW fsW4 instW ["sda"] "sda"
    rfl rfl rfl rfl (Or.inl (by decide)) (by decide) (by decide) (by decide)

/-- C5 witness: Scenario E — granularity `"drive"` yields the configuration
error with no emission. -/
theorem c5_witness :
    check libW fsW instW5 =
      .configError "granularity must be either server or drive"
    ∧ emitted (check libW fsW instW5) = [] :=
  ⟨((c5_config_errors libW libW fsW (fun _ => .enoent) instW5).2.2
      rfl rfl rfl rfl (by decide) (by decide)).1,
   ((c5_config_errors libW libW fsW (fun _ => .enoent) instW5).2.2
      rfl rfl rfl rfl (by decide) (by decide)).2.2⟩

/-- C6 witness: Scenario C — devices contributing 2/1 and 3/0 produce one
primary gauge of 5 and one handoff gauge of 1. -/
theorem c6_witness :
    check libW fsW instW = .ok
      [⟨"swift_handoffs.primary", 5, ⟨"object", [], none⟩⟩,
       ⟨"swift_handoffs.handoffs", 1, ⟨"object", [], none⟩⟩] :=
  (c6_server_emission libW fsW instW ["sda", "sdb"]
    rfl rfl rfl rfl (by decide) (by decide) (by decide)).1

/-- C7 witness: Scenario D — the same two devices at device granularity
produce four gauges, each tagged with its own device name. -/
theorem c7_witness :
    check libW fsW instW7 = .ok
      [⟨"swift_handoffs.primary", 2, ⟨"object", [], some "sda"⟩⟩,
       ⟨"swift_handoffs.handoffs", 1, ⟨"object", [], some "sda"⟩⟩,
       ⟨"swift_handoffs.primary", 3, ⟨"object", [], some "sdb"⟩⟩,
       ⟨"swift_handoffs.handoffs", 0, ⟨"object", [], some "sdb"⟩⟩] :=
  (c7_device_emission libW fsW instW7 ["sda", "sdb"]
    rfl rfl rfl rfl (by decide) (by decide) (by decide)).1

/-- C8 witness: for the default object ring path the logical name is
`object` and the data directory comes from the policy. -/
theorem c8_witness :
    (get_ring_and_datadir libW "/etc/swift/object.ring.gz").2.1 =
      ring_name_of "/etc/swift/object.ring.gz"
    ∧ (get_ring_and_datadir libW "/etc/swift/object.ring.gz").2.2 =
      libW.get_data_dir 0 :=
  ⟨(c8_datadir libW "/etc/swift/object.ring.gz" "object" 0 (by decide)).1,
   (c8_datadir libW "/etc/swift/object.ring.gz" "object" 0 (by decide)).2.1 rfl⟩

/-- C9 witness: two observationally identical snapshots yield the same
check outcome. -/
theorem c9_witness : check libW fsW instW = check libW fsW9 instW :=
  (c9_deterministic libW fsW fsW9 instW (fun _ => rfl) (fun _ => rfl)
    (fun _ => rfl) fsW9_listDir).1

/-- C10 witness: `"Server"` behaves exactly like `"server"`. -/
theorem c10_witness :
    check libW fsW { instW with granularity := some "Server" } =
      check libW fsW { instW with granularity := some "server" } :=
  (c10_granularity_case libW fsW instW "Server" "server").1 (by decide)

end Swift
